import Mathlib

/-!
Verification development for the pyvultr pagination engine.

Shallow embedding of the code in pyvultr/utils/pagination.py (class
VultrPagination and its helpers from pyvultr/utils/box.py) and of the
rate-limit gate in pyvultr/v2/base.py (BaseVultrV2.frequency_detector).

Modelling conventions:
- items are natural numbers (the dacite decoding step is the identity here,
  since decoding does not affect any claim);
- the fetch callable is a pure function keyed on the cursor, the only query
  parameter that varies between page requests of one collection
  (page_size and the extra filter params are fixed at construction and are
  merged into every request unchanged, so they are omitted from the state);
- every operation returns, besides its Python return value or exception,
  the final object state and the number of times the fetch callable was
  invoked, so that claims about network calls are statable;
- unbounded recursion (get_by_idx calls itself) is given an explicit fuel;
  an operation returns none when the fuel runs out, and the termination
  theorems show a concrete fuel bound after which none never occurs.
-/

namespace Pyvultr

/-- PaginationFetchState from pyvultr/utils/pagination.py. -/
inductive PaginationFetchState where
  | NeverFetch
  | FetchAble
  | NoMoreData
deriving DecidableEq

/-- Raw JSON envelope as the pagination layer observes it after the fetcher
returns. `ok items next total` is a structurally valid page body
`{key: items, "meta": {"links": {"next": next, ...}, "total": total}}`;
`noMeta` is a body whose "meta" key is absent (or falsy); `badPayload` is a
body with meta present but whose remaining keys are not exactly one
list-valued key (get_only_value returns None). -/
inductive RawResp where
  | ok (items : List Nat) (next : String) (total : Int)
  | noMeta
  | badPayload
deriving DecidableEq

/-- The fetch callable bound at construction: cursor value sent in the
query params (None on the first request) to response body. -/
abbrev Fetcher := Option String → RawResp

/-- The mutable attributes of a VultrPagination object that the claims
depend on: self.cursor, self.data, self.state, self.capacity, self.__total. -/
structure PgState where
  cursor : Option String
  data : List Nat
  state : PaginationFetchState
  capacity : Option Int
  total : Option Int
deriving DecidableEq

/-- Object state right after VultrPagination.__init__ ran its assignments,
before check_prefetch: data = [], state = NeverFetch, __total = None. -/
def freshState (cursor : Option String) (capacity : Option Int) : PgState :=
  ⟨cursor, [], .NeverFetch, capacity, none⟩

/-- The two exception types VultrPagination.fetch can raise. -/
inductive FetchError where
  | noMorePageData
  | unexpectedPageData
deriving DecidableEq

/-- VultrPagination.fetch (pagination.py lines 187-222).
Returns (Python result, final state, number of fetcher invocations).

Line-by-line: if self.cursor == "": raise NoMorePageDataException (before
params are built and before the fetcher is called); otherwise call the
fetcher, set state = FetchAble unconditionally, raise
UnexpectedPageDataException if meta is missing or the single data key cannot
be located, raise NoMorePageDataException if the item list is empty (note:
cursor and __total are NOT updated on this path), else set
cursor = meta.links.next or "" (identity on strings), set __total, and
extend data by the items truncated to max(capacity - len(data), 0) when
capacity is not None. -/
def fetch (f : Fetcher) (st : PgState) : Except FetchError (List Nat) × PgState × Nat :=
  if st.cursor = some "" then
    (.error .noMorePageData, st, 0)
  else
    match f st.cursor with
    | .noMeta => (.error .unexpectedPageData, { st with state := .FetchAble }, 1)
    | .badPayload => (.error .unexpectedPageData, { st with state := .FetchAble }, 1)
    | .ok items next total =>
      if items.length ≤ 0 then
        (.error .noMorePageData, { st with state := .FetchAble }, 1)
      else
        let should_end_at : Option Int := st.capacity.map fun c => max (c - st.data.length) 0
        let newData : List Nat :=
          match should_end_at with
          | none => st.data ++ items
          | some k => st.data ++ items.take k.toNat
        (.ok items,
         { st with state := .FetchAble, cursor := some next, total := some total, data := newData },
         1)

/-- The exception kinds that can escape the access methods:
OutOfRangePageDataException, a plain Python IndexError raised by list
indexing itself, and UnexpectedPageDataException. -/
inductive AccessError where
  | outOfRange
  | indexErr
  | unexpected
deriving DecidableEq

/-- Python list indexing l[i] for an int index: negative indices count from
the tail; out of range raises IndexError (modelled as none). -/
def pyGet {α : Type} (l : List α) (i : Int) : Option α :=
  let j : Int := if i < 0 then i + l.length else i
  if 0 ≤ j ∧ j < (l.length : Int) then l.get? j.toNat else none

/-- VultrPagination.get_by_idx (pagination.py lines 160-174), with fuel for
the tail recursion.

  if self.data:
      if idx < len(self.data): return self.data[idx]
      if self.capacity is not None: raise OutOfRangePageDataException()
  try: self.fetch()
  except NoMorePageDataException:
      self.state = NoMoreData; raise OutOfRangePageDataException()
  return self.get_by_idx(idx)
-/
def get_by_idx (f : Fetcher) : Nat → PgState → Int → Option (Except AccessError Nat × PgState × Nat)
  | 0, _, _ => none
  | fuel + 1, st, idx =>
    if st.data ≠ [] ∧ idx < (st.data.length : Int) then
      some ((match pyGet st.data idx with
             | some v => .ok v
             | none => .error .indexErr), st, 0)
    else if st.data ≠ [] ∧ st.capacity.isSome then
      some (.error .outOfRange, st, 0)
    else
      match fetch f st with
      | (.error .noMorePageData, st1, n) =>
        some (.error .outOfRange, { st1 with state := .NoMoreData }, n)
      | (.error .unexpectedPageData, st1, n) =>
        some (.error .unexpected, st1, n)
      | (.ok _, st1, n) =>
        (get_by_idx f fuel st1 idx).map fun r => (r.1, r.2.1, n + r.2.2)

/-- Python sys.maxsize on a 64-bit build, as used by calc_max_idx_we_need. -/
def sysMaxsize : Int := 2 ^ 63 - 1

/-- A Python slice object: start, stop, step, each possibly None. -/
structure PySlice where
  start : Option Int
  stop : Option Int
  step : Option Int
deriving DecidableEq

/-- VultrPagination.calc_max_idx_we_need (pagination.py lines 117-144):
apply defaults start=0, stop=sys.maxsize, step=1; an invalid slice
((stop - start) * step <= 0) yields None (fetch nothing); a negative start
or stop yields sys.maxsize (fetch everything); otherwise max(start, stop-1). -/
def calc_max_idx_we_need (seg : PySlice) : Option Int :=
  let s : Int := seg.start.getD 0
  let e : Int := seg.stop.getD sysMaxsize
  let p : Int := seg.step.getD 1
  if (e - s) * p ≤ 0 then none
  else if s < 0 ∨ e < 0 then some sysMaxsize
  else some (max s (e - 1))

/-- VultrPagination.get_by_slice (pagination.py lines 146-158): returns None
without fetching when the slice is invalid, otherwise defers to get_by_idx
on the computed maximal index. -/
def get_by_slice (f : Fetcher) (fuel : Nat) (st : PgState) (seg : PySlice) :
    Option (Except AccessError (Option Nat) × PgState × Nat) :=
  match calc_max_idx_we_need seg with
  | none => some (.ok none, st, 0)
  | some m => (get_by_idx f fuel st m).map fun r => (r.1.map some, r.2.1, r.2.2)

/-- Elements visited by an adjusted Python slice: walk i, i+step, ... while
i is short of stop in the direction of step. The fuel list.length + 1 always
suffices because adjusted indices stay within the list. -/
def pySliceLoop {α : Type} (l : List α) : Nat → Int → Int → Int → List α
  | 0, _, _, _ => []
  | fuel + 1, i, e, p =>
    if (0 < p ∧ i < e) ∨ (p < 0 ∧ e < i) then
      match l.get? i.toNat with
      | some v => v :: pySliceLoop l fuel (i + p) e p
      | none => []
    else []

/-- Python list slicing l[start:stop:step] (CPython PySlice_AdjustIndices
followed by element collection). A step of 0 raises ValueError in Python;
no claim exercises it, and it is modelled as an empty result. -/
def pySlice {α : Type} (l : List α) (seg : PySlice) : List α :=
  let p : Int := seg.step.getD 1
  if p = 0 then []
  else
    let len : Int := l.length
    let lower : Int := if 0 < p then 0 else -1
    let upper : Int := if 0 < p then len else len - 1
    let s : Int :=
      match seg.start with
      | none => if 0 < p then lower else upper
      | some v => if v < 0 then max (v + len) lower else min v upper
    let e : Int :=
      match seg.stop with
      | none => if 0 < p then upper else lower
      | some v => if v < 0 then max (v + len) lower else min v upper
    pySliceLoop l (l.length + 1) s e p

/-- A value returned by VultrPagination.__getitem__: a single item for an
int key, a list for a slice key. -/
inductive PyVal where
  | item (v : Nat)
  | items (l : List Nat)
deriving DecidableEq

/-- A key passed to VultrPagination.__getitem__ (the TypeError branch for
other key types is outside the claims and outside this type). -/
inductive Key where
  | idx (i : Int)
  | slc (s : PySlice)

/-- VultrPagination.__getitem__ (pagination.py lines 86-103):
if capacity is not None, index self.data directly (no fetch at all);
an int key goes through get_by_idx with OutOfRangePageDataException
translated to IndexError; a slice key runs get_by_slice, swallows
OutOfRangePageDataException, and then slices self.data. -/
def getitem (f : Fetcher) (fuel : Nat) (st : PgState) (k : Key) :
    Option (Except AccessError PyVal × PgState × Nat) :=
  if st.capacity.isSome then
    some ((match k with
           | .idx i =>
             match pyGet st.data i with
             | some v => .ok (.item v)
             | none => .error .indexErr
           | .slc s => .ok (.items (pySlice st.data s))), st, 0)
  else
    match k with
    | .idx i =>
      (get_by_idx f fuel st i).map fun r =>
        ((match r.1 with
          | .ok v => .ok (.item v)
          | .error .outOfRange => .error .indexErr
          | .error .indexErr => .error .indexErr
          | .error .unexpected => .error .unexpected), r.2.1, r.2.2)
    | .slc s =>
      (get_by_slice f fuel st s).map fun r =>
        ((match r.1 with
          | .error .unexpected => .error .unexpected
          | .error .indexErr => .error .indexErr
          | _ => .ok (.items (pySlice r.2.1.data s))), r.2.1, r.2.2)

/-- VultrPagination.first (pagination.py lines 105-110): get_by_idx(0) with
OutOfRangePageDataException turned into a None return value. -/
def first (f : Fetcher) (fuel : Nat) (st : PgState) :
    Option (Except AccessError (Option Nat) × PgState × Nat) :=
  (get_by_idx f fuel st 0).map fun r =>
    ((match r.1 with
      | .ok v => .ok (some v)
      | .error .outOfRange => .ok none
      | .error .indexErr => .error .indexErr
      | .error .unexpected => .error .unexpected), r.2.1, r.2.2)

/-- VultrPagination.check_prefetch (pagination.py lines 112-115): prefetch
via get_by_idx(cnt - 1) when cnt is truthy and positive. -/
def check_prefetch (f : Fetcher) (fuel : Nat) (st : PgState) (cnt : Option Int) :
    Option (Except AccessError Unit × PgState × Nat) :=
  match cnt with
  | none => some (.ok (), st, 0)
  | some c =>
    if 0 < c then
      (get_by_idx f fuel st (c - 1)).map fun r => (r.1.map fun _ => (), r.2.1, r.2.2)
    else
      some (.ok (), st, 0)

/-- VultrPagination.__init__ (pagination.py lines 42-62): set the fresh
attribute values, then run check_prefetch(capacity). An exception escaping
check_prefetch escapes the constructor. -/
def construct (f : Fetcher) (cursor : Option String) (capacity : Option Int) (fuel : Nat) :
    Option (Except AccessError Unit × PgState × Nat) :=
  check_prefetch f fuel (freshState cursor capacity) capacity

/-- VultrPagination.__len__ (pagination.py lines 68-70): len(self.data).
The object subclasses list but super().__init__() leaves the underlying
list empty; __len__ reads only self.data, fetches nothing and mutates
nothing, which the unchanged-state and zero-call components record. -/
def len_op (st : PgState) : Nat × PgState × Nat :=
  (st.data.length, st, 0)

/-- Cursor token used by the canonical finite test server below: the page
index encoded in the token's length, so that tokens are nonempty strings
and page 0 is reached by the initial None cursor. -/
def tok (n : Nat) : String :=
  String.mk (List.replicate n 'x')

/-- Page index addressed by a cursor value, for the canonical server. -/
def pageIdx (c : Option String) : Nat :=
  match c with
  | none => 0
  | some s => s.length

/-- A canonical well-formed finite server holding the given pages: every
response is structurally valid, the next-link of the last page is "", and
total is the grand item count. Reading past the last page yields an empty
item list. -/
def mkFetcher (pages : List (List Nat)) : Fetcher := fun c =>
  .ok ((pages.get? (pageIdx c)).getD [])
    (if pageIdx c + 1 < pages.length then tok (pageIdx c + 1) else "")
    (pages.flatten.length : Int)

/-- Collection state after the canonical server's first i pages were
fetched (i = 0 is the fresh state). -/
def midState (pages : List (List Nat)) (i : Nat) : PgState :=
  ⟨if i = 0 then none else if i < pages.length then some (tok i) else some "",
   (pages.take i).flatten,
   if i = 0 then .NeverFetch else .FetchAble,
   none,
   if i = 0 then none else some (pages.flatten.length : Int)⟩

/-- Fuel measure for termination over the canonical server: how far the
cursor has progressed (capped), so that pages.length + 2 total fuel always
suffices. -/
def cIdx (pages : List (List Nat)) (st : PgState) : Nat :=
  match st.cursor with
  | none => 0
  | some s => if s = "" then pages.length + 1 else min s.length (pages.length + 1)

/-- MIN_REQ_INTERVAL_SEC from pyvultr/v2/base.py (0.1 seconds). -/
def MIN_REQ_INTERVAL_SEC : ℚ := 1 / 10

/-- The process-wide LATEST_REQ_AT timestamp from pyvultr/v2/base.py. -/
structure GateState where
  latestReqAt : ℚ
deriving DecidableEq

/-- BaseVultrV2.frequency_detector (base.py lines 123-134), with the wall
clock made an explicit argument:
  req_at = time.time()
  if req_at - LATEST_REQ_AT <= MIN_REQ_INTERVAL_SEC: time.sleep(MIN_REQ_INTERVAL_SEC)
  LATEST_REQ_AT = req_at
Returns whether it slept and the new recorded state; note the recorded
timestamp is the pre-sleep reading in both branches. -/
def frequency_detector (reqAt : ℚ) (g : GateState) : Bool × GateState :=
  (decide (reqAt - g.latestReqAt ≤ MIN_REQ_INTERVAL_SEC), ⟨reqAt⟩)

/-- The wall-clock time at which frequency_detector returns (and the
request that follows it is issued): the reading plus the sleep, if any. -/
def gateReturnTime (reqAt : ℚ) (g : GateState) : ℚ :=
  if reqAt - g.latestReqAt ≤ MIN_REQ_INTERVAL_SEC then reqAt + MIN_REQ_INTERVAL_SEC
  else reqAt


/-! ### Helper lemmas -/

theorem tok_length (n : Nat) : (tok n).length = n := by
  have h : (tok n).length = (List.replicate n 'x').length := rfl
  rw [h, List.length_replicate]

theorem tok_ne_empty (n : Nat) (h : n ≠ 0) : tok n ≠ "" := by
  intro he
  have h1 := tok_length n
  rw [he] at h1
  have h0 : ("" : String).length = 0 := rfl
  omega

theorem cIdx_le (pages : List (List Nat)) (st : PgState) :
    cIdx pages st ≤ pages.length + 1 := by
  rcases hc : st.cursor with _ | s
  · simp [cIdx, hc]
  · by_cases hs : s = ""
    · simp [cIdx, hc, hs]
    · simp only [cIdx, hc, if_neg hs]
      exact min_le_right _ _

theorem pyGet_isSome {α : Type} (l : List α) (i : Int) (h0 : 0 ≤ i)
    (h1 : i < (l.length : Int)) : ∃ v, pyGet l i = some v := by
  simp only [pyGet]
  rw [if_neg (by omega : ¬ i < 0), if_pos ⟨h0, h1⟩]
  exact ⟨_, List.get?_eq_get (by omega)⟩

theorem pyGet_neg_one {α : Type} (l : List α) (h : l ≠ []) :
    ∃ v, pyGet l (-1) = some v := by
  have hl : 0 < l.length := List.length_pos.mpr h
  simp only [pyGet]
  rw [if_pos (by norm_num : (-1 : Int) < 0),
    if_pos (by constructor <;> omega : 0 ≤ -1 + (l.length : Int) ∧ -1 + (l.length : Int) < (l.length : Int))]
  exact ⟨_, List.get?_eq_get (by omega)⟩

theorem calc_nonneg (seg : PySlice) (m : Int)
    (h : calc_max_idx_we_need seg = some m) : 0 ≤ m := by
  simp only [calc_max_idx_we_need] at h
  split_ifs at h with h1 h2
  · rw [Option.some_inj] at h
    subst h
    decide
  · rw [Option.some_inj] at h
    subst h
    push_neg at h2
    exact le_trans h2.1 (le_max_left _ _)

/-- One unfolding step of get_by_idx when the cursor is already the empty
string: the access is answered without any fetcher invocation and neither
data nor cursor nor capacity change. -/
theorem get_by_idx_cursor_empty (f : Fetcher) (st : PgState) (fuel : Nat) (idx : Int)
    (hc : st.cursor = some "") :
    ∃ r st1, get_by_idx f (fuel + 1) st idx = some (r, st1, 0) ∧
      st1.data = st.data ∧ st1.cursor = some "" ∧ st1.capacity = st.capacity := by
  by_cases h1 : st.data ≠ [] ∧ idx < (st.data.length : Int)
  · cases hp : pyGet st.data idx with
    | some v => exact ⟨.ok v, st, by simp only [get_by_idx, if_pos h1, hp], rfl, hc, rfl⟩
    | none => exact ⟨.error .indexErr, st, by simp only [get_by_idx, if_pos h1, hp], rfl, hc, rfl⟩
  · by_cases h2 : st.data ≠ [] ∧ st.capacity.isSome
    · refine ⟨.error .outOfRange, st, ?_, rfl, hc, rfl⟩
      simp only [get_by_idx, if_neg h1, if_pos h2]
    · refine ⟨.error .outOfRange, { st with state := .NoMoreData }, ?_, rfl, hc, rfl⟩
      simp only [get_by_idx, if_neg h1, if_neg h2, fetch, if_pos hc]

/-- C1 (amended). Once the cursor is the empty string - which is how an
observed exhaustion is recorded durably - no subsequent access (integer
indexing, slicing, iteration via repeated integer indexing, or first())
ever invokes the fetch callable again: the access is answered from the
cache or signals out-of-range, with zero fetcher invocations, and the
cached data and cursor are unchanged. (The claim's trigger, state =
NoMoreData, does not guarantee this: see the counterexample, where an
empty page sets state = NoMoreData while the cursor is left untouched and
a later access fetches again.) -/
theorem C1_no_fetch_once_cursor_empty (f : Fetcher) (st : PgState) (fuel : Nat)
    (hc : st.cursor = some "") :
    (∀ k, ∃ r st1, getitem f (fuel + 1) st k = some (r, st1, 0) ∧
       st1.data = st.data ∧ st1.cursor = some "") ∧
    (∃ r st1, first f (fuel + 1) st = some (r, st1, 0) ∧
       st1.data = st.data ∧ st1.cursor = some "") := by
  constructor
  · intro k
    by_cases hcap : st.capacity.isSome
    · cases k with
      | idx i =>
        cases hp : pyGet st.data i with
        | some v =>
          exact ⟨.ok (.item v), st, by simp only [getitem, if_pos hcap, hp], rfl, hc⟩
        | none =>
          exact ⟨.error .indexErr, st, by simp only [getitem, if_pos hcap, hp], rfl, hc⟩
      | slc s =>
        exact ⟨.ok (.items (pySlice st.data s)), st, by simp only [getitem, if_pos hcap], rfl, hc⟩
    · cases k with
      | idx i =>
        obtain ⟨r, st1, heq, hd, hcur, _⟩ := get_by_idx_cursor_empty f st fuel i hc
        exact ⟨_, st1, by simp only [getitem, if_neg hcap, heq, Option.map_some']; rfl, hd, hcur⟩
      | slc s =>
        cases hm : calc_max_idx_we_need s with
        | none =>
          exact ⟨.ok (.items (pySlice st.data s)), st,
            by simp only [getitem, if_neg hcap, get_by_slice, hm, Option.map_some'], rfl, hc⟩
        | some m =>
          obtain ⟨r, st1, heq, hd, hcur, _⟩ := get_by_idx_cursor_empty f st fuel m hc
          exact ⟨_, st1,
            by simp only [getitem, if_neg hcap, get_by_slice, hm, heq, Option.map_some']; rfl, hd, hcur⟩
  · obtain ⟨r, st1, heq, hd, hcur, _⟩ := get_by_idx_cursor_empty f st fuel 0 hc
    exact ⟨_, st1, by simp only [first, heq, Option.map_some']; rfl, hd, hcur⟩

/-- Witness for C1: the exhausted one-item collection answers every access
kind with zero fetcher invocations. -/
theorem C1_no_fetch_once_cursor_empty_witness :
    ((⟨some "", [7], .FetchAble, none, none⟩ : PgState).cursor = some "") ∧
    ((∀ k, ∃ r st1, getitem (fun _ => RawResp.ok [9] "t" 1) 3 (⟨some "", [7], .FetchAble, none, none⟩ : PgState) k = some (r, st1, 0) ∧
        st1.data = (⟨some "", [7], .FetchAble, none, none⟩ : PgState).data ∧ st1.cursor = some "") ∧
     (∃ r st1, first (fun _ => RawResp.ok [9] "t" 1) 3 (⟨some "", [7], .FetchAble, none, none⟩ : PgState) = some (r, st1, 0) ∧
        st1.data = (⟨some "", [7], .FetchAble, none, none⟩ : PgState).data ∧ st1.cursor = some "")) :=
  ⟨rfl, C1_no_fetch_once_cursor_empty (fun _ => RawResp.ok [9] "t" 1) ⟨some "", [7], .FetchAble, none, none⟩ 2 rfl⟩

/-- Counterexample to C1 as stated: a server whose first page is empty.
The first access sets state = NoMoreData (and leaves the cursor at none);
the second access, despite state = NoMoreData, invokes the fetch callable
once more (third component 1, not 0). -/
theorem C1_counterexample :
    (getitem (fun _ => RawResp.ok [] "t" 0) 2 (freshState none none) (.idx 0) =
      some (.error .indexErr, ⟨none, [], .NoMoreData, none, none⟩, 1)) ∧
    ((⟨none, [], .NoMoreData, none, none⟩ : PgState).state = .NoMoreData) ∧
    (getitem (fun _ => RawResp.ok [] "t" 0) 2 (⟨none, [], .NoMoreData, none, none⟩ : PgState) (.idx 0) =
      some (.error .indexErr, ⟨none, [], .NoMoreData, none, none⟩, 1)) ∧
    (1 : Nat) ≠ 0 :=
  ⟨rfl, rfl, rfl, by decide⟩

/-- C3 (amended). When the fetcher is actually invoked (cursor not yet the
empty string), self.state is assigned FetchAble as soon as the fetcher
returns, before any envelope validation; hence after a fetch that raises
UnexpectedPageDataException (missing meta, or the single item-list key not
locatable) the state equals FetchAble - not its value from before the call -
while data and cursor are unchanged and exactly one fetcher call was made. -/
theorem C3_state_fetchable_before_validation (f : Fetcher) (st : PgState)
    (hc : ¬ st.cursor = some "") :
    ((fetch f st).2.1.state = .FetchAble) ∧
    (∀ st1 n, fetch f st = (.error .unexpectedPageData, st1, n) →
      st1.data = st.data ∧ st1.cursor = st.cursor ∧ st1.state = .FetchAble ∧ n = 1) := by
  unfold fetch
  rw [if_neg hc]
  cases hf : f st.cursor with
  | noMeta =>
    refine ⟨rfl, fun st1 n h => ?_⟩
    simp only [Prod.mk.injEq] at h
    obtain ⟨-, rfl, rfl⟩ := h
    exact ⟨rfl, rfl, rfl, rfl⟩
  | badPayload =>
    refine ⟨rfl, fun st1 n h => ?_⟩
    simp only [Prod.mk.injEq] at h
    obtain ⟨-, rfl, rfl⟩ := h
    exact ⟨rfl, rfl, rfl, rfl⟩
  | ok items next total =>
    dsimp only
    by_cases he : items.length ≤ 0
    · rw [if_pos he]
      refine ⟨rfl, fun st1 n h => ?_⟩
      simp only [Prod.mk.injEq] at h
      exact absurd h.1 (by simp)
    · rw [if_neg he]
      refine ⟨rfl, fun st1 n h => ?_⟩
      simp only [Prod.mk.injEq] at h
      exact absurd h.1 (by simp)

/-- Witness for C3: a fresh collection against a meta-less response. -/
theorem C3_state_fetchable_before_validation_witness :
    (¬ (freshState none none).cursor = some "") ∧
    ((fetch (fun _ => RawResp.noMeta) (freshState none none)).2.1.state = .FetchAble) ∧
    (∀ st1 n, fetch (fun _ => RawResp.noMeta) (freshState none none) = (.error .unexpectedPageData, st1, n) →
      st1.data = (freshState none none).data ∧ st1.cursor = (freshState none none).cursor ∧
      st1.state = .FetchAble ∧ n = 1) := by
  refine ⟨by decide, ?_⟩
  exact C3_state_fetchable_before_validation (fun _ => RawResp.noMeta) (freshState none none) (by decide)

/-- Counterexample to C3 as stated: a fresh collection (state NeverFetch)
receives a response without the meta key; fetch raises
UnexpectedPageDataException yet the state has changed to FetchAble. -/
theorem C3_counterexample :
    (freshState none none).state = PaginationFetchState.NeverFetch ∧
    fetch (fun _ => RawResp.noMeta) (freshState none none) =
      (.error .unexpectedPageData, ⟨none, [], .FetchAble, none, none⟩, 1) ∧
    PaginationFetchState.FetchAble ≠ PaginationFetchState.NeverFetch :=
  ⟨rfl, rfl, by decide⟩

/-- C5 (confirmed). The cursor protocol: when the cursor is the empty
string, fetch fails immediately with NoMorePageDataException, with zero
fetcher invocations (so no query parameters are ever built for it) and a
completely unchanged state - in particular the cursor stays "" forever;
any cursor change produced by fetch comes from the provider's next link
of the response just fetched; and a default construction starts at None. -/
theorem C5_cursor_monotone_protocol (f : Fetcher) (st : PgState) :
    (st.cursor = some "" → fetch f st = (.error .noMorePageData, st, 0)) ∧
    (∀ e st1 n, fetch f st = (e, st1, n) →
      st1.cursor = st.cursor ∨
      ∃ items next total, f st.cursor = .ok items next total ∧ st1.cursor = some next) ∧
    (∀ cap, (freshState none cap).cursor = none) := by
  refine ⟨fun h => by simp only [fetch, if_pos h], ?_, fun cap => rfl⟩
  intro e st1 n h
  unfold fetch at h
  by_cases hc : st.cursor = some ""
  · rw [if_pos hc] at h
    simp only [Prod.mk.injEq] at h
    obtain ⟨-, rfl, -⟩ := h
    left; rfl
  · rw [if_neg hc] at h
    cases hf : f st.cursor with
    | noMeta =>
      rw [hf] at h
      simp only [Prod.mk.injEq] at h
      obtain ⟨-, rfl, -⟩ := h
      left; rfl
    | badPayload =>
      rw [hf] at h
      simp only [Prod.mk.injEq] at h
      obtain ⟨-, rfl, -⟩ := h
      left; rfl
    | ok items next total =>
      rw [hf] at h
      dsimp only at h
      by_cases he : items.length ≤ 0
      · rw [if_pos he] at h
        simp only [Prod.mk.injEq] at h
        obtain ⟨-, rfl, -⟩ := h
        left; rfl
      · rw [if_neg he] at h
        simp only [Prod.mk.injEq] at h
        obtain ⟨-, rfl, -⟩ := h
        right
        exact ⟨items, next, total, rfl, rfl⟩

/-- Witness for C5: an exhausted cursor short-circuits fetch. -/
theorem C5_cursor_monotone_protocol_witness :
    ((⟨some "", [5], .FetchAble, none, none⟩ : PgState).cursor = some "") ∧
    fetch (fun _ => RawResp.ok [1] "t" 1) (⟨some "", [5], .FetchAble, none, none⟩ : PgState) =
      (.error .noMorePageData, ⟨some "", [5], .FetchAble, none, none⟩, 0) :=
  ⟨rfl, (C5_cursor_monotone_protocol (fun _ => RawResp.ok [1] "t" 1) ⟨some "", [5], .FetchAble, none, none⟩).1 rfl⟩

/-- C9 (amended). frequency_detector reads the clock; it sleeps exactly
when the elapsed time since the recorded timestamp is at most
MIN_REQ_INTERVAL_SEC, and then for the full interval; it records the
pre-sleep reading as the new timestamp in both branches. Consequently a
call completes at least the minimum interval after the previously recorded
(pre-sleep) timestamp - but not necessarily the minimum interval after the
previous call actually completed, so consecutive requests are NOT
guaranteed to be spaced by the interval (see the counterexample). -/
theorem C9_gate_behavior (reqAt : ℚ) (g : GateState) :
    (frequency_detector reqAt g).2 = ⟨reqAt⟩ ∧
    ((frequency_detector reqAt g).1 = true ↔ reqAt - g.latestReqAt ≤ MIN_REQ_INTERVAL_SEC) ∧
    (g.latestReqAt ≤ reqAt →
      g.latestReqAt + MIN_REQ_INTERVAL_SEC ≤ gateReturnTime reqAt g) := by
  refine ⟨rfl, by simp [frequency_detector], ?_⟩
  intro h
  unfold gateReturnTime
  split_ifs with hs
  · linarith
  · push_neg at hs
    linarith

/-- Witness for C9: a first call after a long idle period. -/
theorem C9_gate_behavior_witness :
    ((⟨0⟩ : GateState).latestReqAt ≤ (1 : ℚ)) ∧
    (⟨0⟩ : GateState).latestReqAt + MIN_REQ_INTERVAL_SEC ≤ gateReturnTime 1 ⟨0⟩ :=
  ⟨by norm_num, (C9_gate_behavior 1 ⟨0⟩).2.2 (by norm_num)⟩

/-- Counterexample to C9 as stated: start with LATEST_REQ_AT = 0. A call
reads the clock at 1/20, sleeps, and so completes (issues its request) at
3/20, recording 1/20. A second call reads the clock at 4/25 - strictly
after the first completed - sees elapsed 4/25 - 1/20 = 11/100 above the
interval, does not sleep, and completes at 4/25. The two requests are
only 1/100 apart, less than MIN_REQ_INTERVAL_SEC = 1/10. -/
theorem C9_counterexample :
    gateReturnTime (1/20) ⟨0⟩ ≤ (4/25 : ℚ) ∧
    (frequency_detector (1/20) ⟨0⟩).2 = ⟨1/20⟩ ∧
    gateReturnTime (4/25) ((frequency_detector (1/20) ⟨0⟩).2) - gateReturnTime (1/20) ⟨0⟩ <
      MIN_REQ_INTERVAL_SEC := by
  refine ⟨?_, rfl, ?_⟩ <;>
    norm_num [gateReturnTime, frequency_detector, MIN_REQ_INTERVAL_SEC]

/-- C10 (confirmed). len() returns exactly the number of currently cached
items, invoking no fetch and changing no state (the returned state is the
argument itself and the fetcher-invocation count is 0); it is 0 for a
fresh collection without capacity; and it is the cache length even when
the server-reported total differs: after one item access against a
two-page three-item server the cache holds 2 items, __total records 3,
and len() answers 2, not 3. -/
theorem C10_len_is_cache_length (st : PgState) :
    len_op st = (st.data.length, st, 0) ∧
    (len_op (freshState none none)).1 = 0 ∧
    (∃ r st1 n, getitem (mkFetcher [[1, 2], [3]]) 4 (freshState none none) (.idx 0) = some (r, st1, n) ∧
      (len_op st1).1 = 2 ∧ st1.total = some 3 ∧ (len_op st1).1 ≠ 3) := by
  refine ⟨rfl, rfl, ⟨.ok (.item 1), ⟨some (tok 1), [1, 2], .FetchAble, none, some 3⟩, 1, rfl, rfl, rfl, by decide⟩⟩

/-- The state produced by a successful fetch against the canonical server
(used to state the lemmas below; its body is the success branch of fetch
instantiated with mkFetcher's response). -/
def stepSt (pages : List (List Nat)) (st : PgState) : PgState :=
  ⟨some (if pageIdx st.cursor + 1 < pages.length then tok (pageIdx st.cursor + 1) else ""),
   (match st.capacity.map (fun c => max (c - (st.data.length : Int)) 0) with
    | none => st.data ++ (pages.get? (pageIdx st.cursor)).getD []
    | some k => st.data ++ ((pages.get? (pageIdx st.cursor)).getD []).take k.toNat),
   .FetchAble, st.capacity, some (pages.flatten.length : Int)⟩

/-- Characterization of a successful fetch against the canonical server:
when the cursor is not yet "" and the addressed page is nonempty, fetch
returns that page, advances the cursor to the next token (or "" on the
last page), records the total, and appends to the cache. -/
theorem fetch_mk_success (pages : List (List Nat)) (st : PgState)
    (hc : ¬ st.cursor = some "")
    (hpne : (pages.get? (pageIdx st.cursor)).getD [] ≠ []) :
    fetch (mkFetcher pages) st =
      (.ok ((pages.get? (pageIdx st.cursor)).getD []), stepSt pages st, 1) := by
  have hlen : ¬ ((pages.get? (pageIdx st.cursor)).getD []).length ≤ 0 := by
    have := List.length_pos.mpr hpne
    omega
  unfold fetch mkFetcher stepSt
  rw [if_neg hc]
  dsimp only
  rw [if_neg hlen]

/-- With capacity unset, the successful step appends the whole page. -/
theorem stepSt_data_of_capacity_none (pages : List (List Nat)) (st : PgState)
    (hcap : st.capacity = none) :
    (stepSt pages st).data = st.data ++ (pages.get? (pageIdx st.cursor)).getD [] := by
  simp [stepSt, hcap]

/-- Any index access against the canonical finite server terminates within
fuel pages.length + 2 (minus progress already made by the cursor), and the
outcome is never UnexpectedPageDataException; for a non-negative index it
is never a raw IndexError either. -/
theorem get_by_idx_mk_total (pages : List (List Nat)) :
    ∀ (fuel : Nat) (st : PgState) (idx : Int),
      pages.length + 2 ≤ fuel + cIdx pages st →
      ∃ r st1 n, get_by_idx (mkFetcher pages) fuel st idx = some (r, st1, n) ∧
        r ≠ Except.error .unexpected ∧ (0 ≤ idx → r ≠ Except.error .indexErr) := by
  intro fuel
  induction fuel with
  | zero =>
    intro st idx h
    have := cIdx_le pages st
    omega
  | succ fu ih =>
    intro st idx h
    by_cases h1 : st.data ≠ [] ∧ idx < (st.data.length : Int)
    · cases hp : pyGet st.data idx with
      | some v =>
        exact ⟨.ok v, st, 0, by simp only [get_by_idx, if_pos h1, hp], by simp, fun _ => by simp⟩
      | none =>
        refine ⟨.error .indexErr, st, 0, by simp only [get_by_idx, if_pos h1, hp], by simp, ?_⟩
        intro hge
        exfalso
        obtain ⟨v, hv⟩ := pyGet_isSome st.data idx hge h1.2
        rw [hv] at hp
        exact Option.noConfusion hp
    · by_cases h2 : st.data ≠ [] ∧ st.capacity.isSome
      · exact ⟨.error .outOfRange, st, 0,
          by simp only [get_by_idx, if_neg h1, if_pos h2], by simp, fun _ => by simp⟩
      · by_cases hc : st.cursor = some ""
        · exact ⟨.error .outOfRange, { st with state := .NoMoreData }, 0,
            by simp only [get_by_idx, if_neg h1, if_neg h2, fetch, if_pos hc], by simp,
            fun _ => by simp⟩
        · by_cases hpe : (pages.get? (pageIdx st.cursor)).getD [] = []
          · have hlen0 : ((pages.get? (pageIdx st.cursor)).getD []).length ≤ 0 := by
              rw [hpe]
              simp
            refine ⟨.error .outOfRange, { st with state := .NoMoreData }, 1, ?_, by simp,
              fun _ => by simp⟩
            simp only [get_by_idx, if_neg h1, if_neg h2, fetch, mkFetcher, if_neg hc,
              if_pos hlen0]
          · have hfe := fetch_mk_success pages st hc hpe
            have hlt : pageIdx st.cursor < pages.length := by
              by_contra hge
              push_neg at hge
              rw [List.get?_eq_none.mpr hge] at hpe
              simp at hpe
            have hcidx : cIdx pages st = pageIdx st.cursor := by
              cases hcur : st.cursor with
              | none => simp [cIdx, pageIdx, hcur]
              | some s =>
                have hs : s ≠ "" := fun hse => hc (by rw [hcur, hse])
                have hsl : s.length < pages.length := by
                  have hpi : pageIdx st.cursor = s.length := by rw [hcur]; rfl
                  omega
                simp only [cIdx, hcur, if_neg hs, pageIdx]
                exact Nat.min_eq_left (by omega)
            have hge : pageIdx st.cursor + 1 ≤ cIdx pages (stepSt pages st) := by
              by_cases hn : pageIdx st.cursor + 1 < pages.length
              · have htne : tok (pageIdx st.cursor + 1) ≠ "" := tok_ne_empty _ (by omega)
                simp only [cIdx, stepSt, if_pos hn, if_neg htne, tok_length]
                exact Nat.le_min.mpr ⟨le_refl _, by omega⟩
              · have hcx : cIdx pages (stepSt pages st) = pages.length + 1 := by
                  simp [cIdx, stepSt, if_neg hn]
                omega
            obtain ⟨r, st2, n, heq2, hu, hix⟩ := ih (stepSt pages st) idx (by omega)
            refine ⟨r, st2, 1 + n, ?_, hu, hix⟩
            simp only [get_by_idx, if_neg h1, if_neg h2, hfe, heq2, Option.map_some']

/-- One step of get_by_idx on an exhausted cursor with no cache hit and no
capacity: the fetch short-circuits and only the state flag changes. -/
theorem get_by_idx_stop (f : Fetcher) (st : PgState) (fuel : Nat) (idx : Int)
    (hc : st.cursor = some "")
    (hd : ¬ (st.data ≠ [] ∧ idx < (st.data.length : Int)))
    (hcap : st.capacity = none) :
    get_by_idx f (fuel + 1) st idx =
      some (.error .outOfRange, { st with state := .NoMoreData }, 0) := by
  have hncap : ¬ (st.data ≠ [] ∧ st.capacity.isSome) := by
    rintro ⟨-, hx⟩
    rw [hcap] at hx
    simp at hx
  simp only [get_by_idx, if_neg hd, if_neg hncap, fetch, if_pos hc]

/-- Accessing any index at or beyond the total remote item count, starting
from the state in which the first i pages are cached, walks every remaining
page of the canonical server, ends with the whole remote data cached and
the cursor at "", and raises OutOfRangePageDataException. -/
theorem get_by_idx_mk_fetch_all (pages : List (List Nat)) (hne : ∀ p ∈ pages, p ≠ [])
    (hL : 1 ≤ pages.length) :
    ∀ (k i : Nat), i + k = pages.length →
    ∀ (idx : Int), (pages.flatten.length : Int) ≤ idx →
    ∀ (fuel : Nat), k + 1 ≤ fuel →
    ∃ n, get_by_idx (mkFetcher pages) fuel (midState pages i) idx =
      some (.error .outOfRange,
            ⟨some "", pages.flatten, .NoMoreData, none, some (pages.flatten.length : Int)⟩, n) := by
  intro k
  induction k with
  | zero =>
    intro i hi idx hidx fuel hf
    obtain ⟨fu, rfl⟩ : ∃ fu, fuel = fu + 1 := ⟨fuel - 1, by omega⟩
    have hi' : i = pages.length := by omega
    subst hi'
    have h0 : ¬ (pages.length = 0) := by omega
    have h1 : ¬ (pages.length < pages.length) := by omega
    have hm : midState pages pages.length =
        ⟨some "", pages.flatten, .FetchAble, none, some (pages.flatten.length : Int)⟩ := by
      simp [midState, h0, h1, List.take_length]
    rw [hm]
    refine ⟨0, ?_⟩
    rw [get_by_idx_stop _ _ fu idx rfl ?_ rfl]
    · rintro ⟨-, hlt⟩
      dsimp only at hlt
      omega
  | succ k ihk =>
    intro i hi idx hidx fuel hf
    obtain ⟨fu, rfl⟩ : ∃ fu, fuel = fu + 1 := ⟨fuel - 1, by omega⟩
    have hiL : i < pages.length := by omega
    have hpge : pages.get? i = some (pages.get ⟨i, hiL⟩) := List.get?_eq_get hiL
    have hpmem : pages.get ⟨i, hiL⟩ ∈ pages := List.get_mem _ _ _
    have hpidx : pageIdx (midState pages i).cursor = i := by
      by_cases h0 : i = 0
      · subst h0
        simp [midState, pageIdx]
      · simp [midState, pageIdx, h0, hiL, tok_length]
    have hpne : (pages.get? (pageIdx (midState pages i).cursor)).getD [] ≠ [] := by
      rw [hpidx, hpge]
      exact hne _ hpmem
    have hcur : ¬ (midState pages i).cursor = some "" := by
      by_cases h0 : i = 0
      · subst h0
        simp [midState]
      · simp only [midState, if_neg h0, if_pos hiL]
        intro hcon
        exact tok_ne_empty i h0 (by injection hcon)
    have hfe := fetch_mk_success pages (midState pages i) hcur hpne
    have hcapm : (midState pages i).capacity = none := rfl
    have hstep : stepSt pages (midState pages i) = midState pages (i + 1) := by
      have h10 : ¬ (i + 1 = 0) := by omega
      have hdata1 : (midState pages i).data = (pages.take i).flatten := rfl
      simp only [stepSt, hpidx, hcapm, Option.map_none', hdata1]
      by_cases hn : i + 1 < pages.length
      · simp only [midState, h10, hn, List.take_succ, hpge, List.flatten_append,
          if_neg h10, if_pos hn, if_true, if_false]
        rw [← List.get?_eq_getElem?, hpge]
        simp
      · simp only [midState, h10, hn, List.take_succ, hpge, List.flatten_append,
          if_neg h10, if_neg hn]
        rw [← List.get?_eq_getElem?, hpge]
        simp
    have hlen : (pages.take i).flatten.length ≤ pages.flatten.length := by
      conv_rhs => rw [← List.take_append_drop i pages]
      rw [List.flatten_append, List.length_append]
      omega
    have hnlt : ¬ ((midState pages i).data ≠ [] ∧ idx < ((midState pages i).data.length : Int)) := by
      rintro ⟨-, hlt⟩
      have hdata : (midState pages i).data = (pages.take i).flatten := rfl
      rw [hdata] at hlt
      omega
    have hncap : ¬ ((midState pages i).data ≠ [] ∧ (midState pages i).capacity.isSome) := by
      rintro ⟨-, hx⟩
      rw [hcapm] at hx
      simp at hx
    obtain ⟨n, hrec⟩ := ihk (i + 1) (by omega) idx hidx fu (by omega)
    refine ⟨1 + n, ?_⟩
    simp only [get_by_idx, if_neg hnlt, if_neg hncap, hfe, hstep, hrec, Option.map_some']

/-- C7 (confirmed). A slice access never raises: against the canonical
well-formed finite server, from any collection state, __getitem__ with a
slice key always returns normally, and its value is exactly the Python
slice of the cache as it stands after the access (so slicing past the end
returns whatever was cached when exhaustion was hit). -/
theorem C7_slice_never_raises (pages : List (List Nat)) (st : PgState) (seg : PySlice) :
    ∃ st1 n, getitem (mkFetcher pages) (pages.length + 2) st (.slc seg) =
      some (.ok (.items (pySlice st1.data seg)), st1, n) := by
  by_cases hcap : st.capacity.isSome
  · exact ⟨st, 0, by simp only [getitem, if_pos hcap]⟩
  · cases hm : calc_max_idx_we_need seg with
    | none =>
      exact ⟨st, 0, by simp only [getitem, if_neg hcap, get_by_slice, hm, Option.map_some']⟩
    | some m =>
      have hm0 : 0 ≤ m := calc_nonneg seg m hm
      obtain ⟨r, st1, n, heq, hu, hix⟩ :=
        get_by_idx_mk_total pages (pages.length + 2) st m (by omega)
      refine ⟨st1, n, ?_⟩
      rcases r with e | v
      · cases e with
        | outOfRange =>
          simp only [getitem, if_neg hcap, get_by_slice, hm, heq, Option.map_some', Except.map]
        | indexErr => exact absurd rfl (hix hm0)
        | unexpected => exact absurd rfl hu
      · simp only [getitem, if_neg hcap, get_by_slice, hm, heq, Option.map_some', Except.map]

/-- C8 (amended). Termination and growth: (1) any index access against the
canonical finite server terminates within fuel pages.length + 2 with a
definite outcome (item or out-of-range; never a protocol violation);
(2) in the default capacity-None mode every successful fetch strictly
grows the cache; (3) a structurally valid page with an empty item list is
signalled as NoMorePageDataException (the exhaustion signal), not as a
protocol violation. (A successful fetch that adds zero new items exists
only in capacity mode and loops on to exhaustion instead of failing
fatally - see the counterexample.) -/
theorem C8_termination_and_growth (pages : List (List Nat)) (st : PgState) (idx : Int) :
    (∃ r st1 n, get_by_idx (mkFetcher pages) (pages.length + 2) st idx = some (r, st1, n) ∧
       r ≠ Except.error .unexpected) ∧
    (∀ (f : Fetcher) (s : PgState) (items : List Nat) (s1 : PgState) (n : Nat),
       s.capacity = none → fetch f s = (.ok items, s1, n) →
       s.data.length < s1.data.length) ∧
    (∀ (f : Fetcher) (s : PgState) (next : String) (t : Int),
       ¬ s.cursor = some "" → f s.cursor = .ok [] next t →
       (fetch f s).1 = .error .noMorePageData) := by
  refine ⟨?_, ?_, ?_⟩
  · obtain ⟨r, st1, n, heq, hu, -⟩ :=
      get_by_idx_mk_total pages (pages.length + 2) st idx (by omega)
    exact ⟨r, st1, n, heq, hu⟩
  · intro f s items s1 n hcap h
    unfold fetch at h
    by_cases hc : s.cursor = some ""
    · rw [if_pos hc] at h
      simp only [Prod.mk.injEq] at h
      exact absurd h.1 (by simp)
    · rw [if_neg hc] at h
      cases hf : f s.cursor with
      | noMeta =>
        rw [hf] at h
        simp only [Prod.mk.injEq] at h
        exact absurd h.1 (by simp)
      | badPayload =>
        rw [hf] at h
        simp only [Prod.mk.injEq] at h
        exact absurd h.1 (by simp)
      | ok items2 next t =>
        rw [hf] at h
        dsimp only at h
        by_cases he : items2.length ≤ 0
        · rw [if_pos he] at h
          simp only [Prod.mk.injEq] at h
          exact absurd h.1 (by simp)
        · rw [if_neg he] at h
          simp only [Prod.mk.injEq] at h
          obtain ⟨-, rfl, -⟩ := h
          simp only [hcap, Option.map_none']
          rw [List.length_append]
          omega
  · intro f s next t hc hf
    simp [fetch, if_neg hc, hf]

/-- Witness for C8: a successful first fetch of a one-page server strictly
grows the cache of a default-mode collection. -/
theorem C8_termination_and_growth_witness :
    ((freshState none none).capacity = none) ∧
    (fetch (fun _ => RawResp.ok [7] "" 1) (freshState none none) =
      (.ok [7], ⟨some "", [7], .FetchAble, none, some 1⟩, 1)) ∧
    ((freshState none none).data.length <
      (⟨some "", [7], .FetchAble, none, some 1⟩ : PgState).data.length) :=
  ⟨rfl, rfl,
   (C8_termination_and_growth [] (freshState none none) 0).2.1
     (fun _ => RawResp.ok [7] "" 1) (freshState none none) [7]
     ⟨some "", [7], .FetchAble, none, some 1⟩ 1 rfl rfl⟩

/-- Counterexample to C8 as stated: with capacity = 0 the first fetch
succeeds (returns the page [5]) while appending zero new items to the
cache - zero new items without any exhaustion signal - and no protocol
violation is raised: get_by_idx simply continues and terminates
out-of-range after the cursor reaches "". -/
theorem C8_counterexample :
    fetch (mkFetcher [[5]]) (⟨none, [], .NeverFetch, some 0, none⟩ : PgState) =
      (.ok [5], ⟨some "", [], .FetchAble, some 0, some 1⟩, 1) ∧
    (⟨none, [], .NeverFetch, some 0, none⟩ : PgState).data.length =
      (⟨some "", [], .FetchAble, some 0, some 1⟩ : PgState).data.length ∧
    get_by_idx (mkFetcher [[5]]) 3 (⟨none, [], .NeverFetch, some 0, none⟩ : PgState) 0 =
      some (.error .outOfRange, ⟨some "", [], .NoMoreData, some 0, some 1⟩, 1) :=
  ⟨rfl, rfl, rfl⟩

/-- With capacity set, the successful step appends the page truncated to
the remaining room. -/
theorem stepSt_data_of_capacity_some (pages : List (List Nat)) (st : PgState) (c : Int)
    (hcap : st.capacity = some c) :
    (stepSt pages st).data =
      st.data ++ ((pages.get? (pageIdx st.cursor)).getD []).take
        (max (c - (st.data.length : Int)) 0).toNat := by
  simp [stepSt, hcap]

/-- One-step unfolding of get_by_idx through a successful fetch, keeping
the recursive call abstract. -/
theorem get_by_idx_fetch_step (f : Fetcher) (fuel : Nat) (st : PgState) (idx : Int)
    (h1 : ¬ (st.data ≠ [] ∧ idx < (st.data.length : Int)))
    (h2 : ¬ (st.data ≠ [] ∧ st.capacity.isSome))
    (items : List Nat) (st1 : PgState) (hfe : fetch f st = (.ok items, st1, 1)) :
    get_by_idx f (fuel + 1) st idx =
      (get_by_idx f fuel st1 idx).map fun r => (r.1, r.2.1, 1 + r.2.2) := by
  simp only [get_by_idx, if_neg h1, if_neg h2, hfe]

/-- C2 (amended). Construction with a positive capacity N performs exactly
one fetch, never more: it completes normally precisely when the server's
first page already holds at least N items (the cache then holds exactly
the first N of them); when the first page has fewer than N items - even if
further pages exist - OutOfRangePageDataException escapes the constructor
instead of more pages being prefetched. After any construction, a
capacity-mode collection answers every __getitem__ from the cache alone
(zero fetches, state unchanged), and an out-of-range integer index raises
a plain IndexError. -/
theorem C2_capacity_prefetch (pages : List (List Nat)) (N : Int) (hN : 0 < N) :
    ((N ≤ ((((pages.get? 0).getD []).length : Int))) →
      ∃ st1, construct (mkFetcher pages) none (some N) (pages.length + 2) =
        some (.ok (), st1, 1) ∧ st1.data = ((pages.get? 0).getD []).take N.toNat ∧
        st1.capacity = some N) ∧
    (((((pages.get? 0).getD []).length : Int) < N) →
      ∃ st1, construct (mkFetcher pages) none (some N) (pages.length + 2) =
        some (.error .outOfRange, st1, 1)) ∧
    (∀ (f : Fetcher) (fuel : Nat) (s : PgState) (k : Key), s.capacity.isSome →
      ∃ r, getitem f fuel s k = some (r, s, 0)) ∧
    (∀ (f : Fetcher) (fuel : Nat) (s : PgState) (i : Int), s.capacity.isSome →
      pyGet s.data i = none →
      getitem f fuel s (.idx i) = some (.error .indexErr, s, 0)) := by
  have hfr : ∀ m : Int, ¬ ((freshState none (some N)).data ≠ [] ∧
      m < ((freshState none (some N)).data.length : Int)) := by
    intro m
    simp [freshState]
  have hfr2 : ¬ ((freshState none (some N)).data ≠ [] ∧
      (freshState none (some N)).capacity.isSome) := by
    simp [freshState]
  have hfc : ¬ (freshState none (some N)).cursor = some "" := by
    simp [freshState]
  have he2 : pages.length + 2 = (pages.length + 1) + 1 := rfl
  have hstdata : (stepSt pages (freshState none (some N))).data =
      ((pages.get? 0).getD []).take N.toNat := by
    rw [stepSt_data_of_capacity_some pages (freshState none (some N)) N rfl]
    have hmax : max (N - (((freshState none (some N)).data.length : Nat) : Int)) 0 = N := by
      rw [max_eq_left]
      · simp [freshState]
      · simp [freshState]
        omega
    rw [hmax]
    simp [freshState]
    rfl
  have hstcap : (stepSt pages (freshState none (some N))).capacity = some N := rfl
  refine ⟨?_, ?_, ?_, ?_⟩
  · intro hNle
    have hp0 : (pages.get? (pageIdx (freshState none (some N)).cursor)).getD [] ≠ [] := by
      show ((pages.get? 0).getD [] : List Nat) ≠ []
      intro hnil
      rw [hnil] at hNle
      simp at hNle
      omega
    have hfe := fetch_mk_success pages (freshState none (some N)) hfc hp0
    have hd1 : List.take N.toNat ((pages.get? 0).getD []) ≠ [] ∧
        (N - 1 : Int) < ((List.take N.toNat ((pages.get? 0).getD [])).length : Int) := by
      constructor
      · rw [Ne, List.take_eq_nil_iff]
        push_neg
        exact ⟨by omega, hp0⟩
      · rw [List.length_take]
        omega
    obtain ⟨v, hv⟩ := pyGet_isSome (((pages.get? 0).getD []).take N.toNat) (N - 1)
      (by omega) (by rw [List.length_take]; omega)
    have hr2 : get_by_idx (mkFetcher pages) (pages.length + 1)
        (stepSt pages (freshState none (some N))) (N - 1) =
        some (.ok v, stepSt pages (freshState none (some N)), 0) := by
      simp only [get_by_idx, hstdata, if_pos hd1, hv]
    have hr1 : get_by_idx (mkFetcher pages) (pages.length + 2)
        (freshState none (some N)) (N - 1) =
        some (.ok v, stepSt pages (freshState none (some N)), 1) := by
      rw [he2, get_by_idx_fetch_step (mkFetcher pages) (pages.length + 1)
        (freshState none (some N)) (N - 1) (hfr (N - 1)) hfr2 _ _ hfe, hr2,
        Option.map_some']
      rfl
    refine ⟨stepSt pages (freshState none (some N)), ?_, hstdata, hstcap⟩
    simp only [construct, check_prefetch, if_pos hN, hr1, Option.map_some', Except.map]
  · intro hNgt
    by_cases hp0 : ((pages.get? 0).getD [] : List Nat) = []
    · have hlen0 : ((pages.get? (pageIdx (freshState none (some N)).cursor)).getD [] : List Nat).length ≤ 0 := by
        show ((pages.get? 0).getD [] : List Nat).length ≤ 0
        rw [hp0]
        simp
      have hfetch : fetch (mkFetcher pages) (freshState none (some N)) =
          (.error .noMorePageData, { freshState none (some N) with state := .FetchAble }, 1) := by
        unfold fetch mkFetcher
        rw [if_neg hfc]
        dsimp only
        rw [if_pos hlen0]
      refine ⟨{ freshState none (some N) with state := .NoMoreData }, ?_⟩
      have hr1 : get_by_idx (mkFetcher pages) (pages.length + 2)
          (freshState none (some N)) (N - 1) =
          some (.error .outOfRange, { freshState none (some N) with state := .NoMoreData }, 1) := by
        rw [he2]
        simp only [get_by_idx, if_neg (hfr (N - 1)), if_neg hfr2, hfetch]
      simp only [construct, check_prefetch, if_pos hN, hr1, Option.map_some', Except.map]
    · have hfe := fetch_mk_success pages (freshState none (some N)) hfc hp0
      have hd1 : ¬ (List.take N.toNat ((pages.get? 0).getD []) ≠ [] ∧
          (N - 1 : Int) < ((List.take N.toNat ((pages.get? 0).getD [])).length : Int)) := by
        rintro ⟨-, hlt⟩
        rw [List.length_take] at hlt
        omega
      have hd2 : List.take N.toNat ((pages.get? 0).getD []) ≠ [] ∧
          (stepSt pages (freshState none (some N))).capacity.isSome := by
        constructor
        · rw [Ne, List.take_eq_nil_iff]
          push_neg
          exact ⟨by omega, hp0⟩
        · rfl
      have hr2 : get_by_idx (mkFetcher pages) (pages.length + 1)
          (stepSt pages (freshState none (some N))) (N - 1) =
          some (.error .outOfRange, stepSt pages (freshState none (some N)), 0) := by
        simp only [get_by_idx, hstdata, if_neg hd1, if_pos hd2]
      refine ⟨stepSt pages (freshState none (some N)), ?_⟩
      have hr1 : get_by_idx (mkFetcher pages) (pages.length + 2)
          (freshState none (some N)) (N - 1) =
          some (.error .outOfRange, stepSt pages (freshState none (some N)), 1) := by
        rw [he2, get_by_idx_fetch_step (mkFetcher pages) (pages.length + 1)
          (freshState none (some N)) (N - 1) (hfr (N - 1)) hfr2 _ _ hfe, hr2,
          Option.map_some']
        rfl
      simp only [construct, check_prefetch, if_pos hN, hr1, Option.map_some', Except.map]
  · intro f fuel s k hcap
    cases k with
    | idx i =>
      cases hp : pyGet s.data i with
      | some v => exact ⟨.ok (.item v), by simp only [getitem, if_pos hcap, hp]⟩
      | none => exact ⟨.error .indexErr, by simp only [getitem, if_pos hcap, hp]⟩
    | slc s' => exact ⟨.ok (.items (pySlice s.data s')), by simp only [getitem, if_pos hcap]⟩
  · intro f fuel s i hcap hpg
    simp only [getitem, if_pos hcap, hpg]

/-- Witness for C2: capacity 2 with a 2-item first page constructs
normally after exactly one fetch, caching both items. -/
theorem C2_capacity_prefetch_witness :
    (0 : Int) < 2 ∧
    ((2 : Int) ≤ (((([[1, 2], [3]] : List (List Nat)).get? 0).getD []).length : Int)) ∧
    (∃ st1, construct (mkFetcher [[1, 2], [3]]) none (some 2) 4 =
      some (.ok (), st1, 1) ∧
      st1.data = ((([[1, 2], [3]] : List (List Nat)).get? 0).getD []).take (2 : Int).toNat ∧
      st1.capacity = some 2) :=
  ⟨by decide, by decide, (C2_capacity_prefetch [[1, 2], [3]] 2 (by decide)).1 (by decide)⟩

/-- Counterexample to C2 as stated: capacity 2 over a server with pages
[1] and [2]: the server could supply 2 items, yet construction performs
one fetch, caches only [1], and raises OutOfRangePageDataException out of
the constructor instead of completing normally. -/
theorem C2_counterexample :
    construct (mkFetcher [[1], [2]]) none (some 2) 4 =
      some (.error .outOfRange, ⟨some (tok 1), [1], .FetchAble, some 2, some 2⟩, 1) ∧
    (Except.error AccessError.outOfRange ≠ (Except.ok () : Except AccessError Unit)) :=
  ⟨rfl, fun h => Except.noConfusion h⟩

/-- C4 (amended). On a fresh default-mode collection over a nonempty
canonical server: the open-ended slice [1:] triggers fetching of all
remaining pages until server exhaustion - afterwards the whole remote data
is cached and the cursor is "" - whereas the negative integer index [-1]
performs exactly ONE fetch (not all pages) and returns the last item of
the first page by Python negative-index semantics over the cache. -/
theorem C4_open_slice_vs_negative_index (pages : List (List Nat))
    (hne : ∀ p ∈ pages, p ≠ []) (hL : 1 ≤ pages.length)
    (hbound : (pages.flatten.length : Int) ≤ sysMaxsize - 1) :
    (∃ n, getitem (mkFetcher pages) (pages.length + 2) (freshState none none)
        (.slc ⟨some 1, none, none⟩) =
      some (.ok (.items (pySlice pages.flatten ⟨some 1, none, none⟩)),
            ⟨some "", pages.flatten, .NoMoreData, none, some (pages.flatten.length : Int)⟩, n)) ∧
    (∃ v, getitem (mkFetcher pages) (pages.length + 2) (freshState none none) (.idx (-1)) =
      some (.ok (.item v),
            ⟨some (if 1 < pages.length then tok 1 else ""), (pages.get? 0).getD [],
             .FetchAble, none, some (pages.flatten.length : Int)⟩, 1) ∧
      pyGet ((pages.get? 0).getD []) (-1) = some v) := by
  have hcap : ¬ (freshState none none).capacity.isSome := by simp [freshState]
  have hfc : ¬ (freshState none none).cursor = some "" := by simp [freshState]
  have h1 : ∀ m : Int, ¬ ((freshState none none).data ≠ [] ∧
      m < ((freshState none none).data.length : Int)) := by
    intro m
    simp [freshState]
  have h2 : ¬ ((freshState none none).data ≠ [] ∧ (freshState none none).capacity.isSome) := by
    simp [freshState]
  have hp0 : (pages.get? (pageIdx (freshState none none).cursor)).getD [] ≠ [] := by
    show ((pages.get? 0).getD [] : List Nat) ≠ []
    rw [List.get?_eq_get (show 0 < pages.length by omega)]
    exact hne _ (List.get_mem _ _ _)
  constructor
  · have hcalc : calc_max_idx_we_need ⟨some 1, none, none⟩ = some (sysMaxsize - 1) := by
      decide
    obtain ⟨n, hrec⟩ := get_by_idx_mk_fetch_all pages hne hL pages.length 0 (by omega)
      (sysMaxsize - 1) (by omega) (pages.length + 2) (by omega)
    have hm0 : midState pages 0 = freshState none none := rfl
    rw [hm0] at hrec
    refine ⟨n, ?_⟩
    simp only [getitem, if_neg hcap, get_by_slice, hcalc, hrec, Option.map_some', Except.map]
  · obtain ⟨v, hv⟩ := pyGet_neg_one ((pages.get? 0).getD [] : List Nat) hp0
    have hfe := fetch_mk_success pages (freshState none none) hfc hp0
    have hstfull : stepSt pages (freshState none none) =
        ⟨some (if 1 < pages.length then tok 1 else ""), (pages.get? 0).getD [], .FetchAble, none,
         some (pages.flatten.length : Int)⟩ := by
      simp [stepSt, freshState, pageIdx]
    have hd1 : ((pages.get? 0).getD [] : List Nat) ≠ [] ∧
        (-1 : Int) < (((pages.get? 0).getD [] : List Nat).length : Int) := by
      refine ⟨hp0, ?_⟩
      omega
    have hdd : (stepSt pages (freshState none none)).data = (pages.get? 0).getD [] := by
      rw [hstfull]
    have hr2 : get_by_idx (mkFetcher pages) (pages.length + 1)
        (stepSt pages (freshState none none)) (-1) =
        some (.ok v, stepSt pages (freshState none none), 0) := by
      simp only [get_by_idx, hdd, if_pos hd1, hv]
    have he2 : pages.length + 2 = (pages.length + 1) + 1 := rfl
    have hr1 : get_by_idx (mkFetcher pages) (pages.length + 2) (freshState none none) (-1) =
        some (.ok v, stepSt pages (freshState none none), 1) := by
      rw [he2, get_by_idx_fetch_step (mkFetcher pages) (pages.length + 1)
        (freshState none none) (-1) (h1 (-1)) h2 _ _ hfe, hr2, Option.map_some']
      rfl
    refine ⟨v, ?_, hv⟩
    rw [← hstfull]
    simp only [getitem, if_neg hcap, hr1, Option.map_some']

/-- Witness for C4: the two-page server [[10,20],[30]]. -/
theorem C4_open_slice_vs_negative_index_witness :
    (∀ p ∈ ([[10, 20], [30]] : List (List Nat)), p ≠ []) ∧
    1 ≤ ([[10, 20], [30]] : List (List Nat)).length ∧
    ((([[10, 20], [30]] : List (List Nat)).flatten.length : Int) ≤ sysMaxsize - 1) ∧
    ((∃ n, getitem (mkFetcher [[10, 20], [30]]) (([[10, 20], [30]] : List (List Nat)).length + 2)
        (freshState none none) (.slc ⟨some 1, none, none⟩) =
      some (.ok (.items (pySlice ([[10, 20], [30]] : List (List Nat)).flatten ⟨some 1, none, none⟩)),
            ⟨some "", ([[10, 20], [30]] : List (List Nat)).flatten, .NoMoreData, none,
             some ((([[10, 20], [30]] : List (List Nat)).flatten.length : Int))⟩, n)) ∧
     (∃ v, getitem (mkFetcher [[10, 20], [30]]) (([[10, 20], [30]] : List (List Nat)).length + 2)
        (freshState none none) (.idx (-1)) =
      some (.ok (.item v),
            ⟨some (if 1 < ([[10, 20], [30]] : List (List Nat)).length then tok 1 else ""),
             (([[10, 20], [30]] : List (List Nat)).get? 0).getD [],
             .FetchAble, none, some ((([[10, 20], [30]] : List (List Nat)).flatten.length : Int))⟩, 1) ∧
      pyGet ((([[10, 20], [30]] : List (List Nat)).get? 0).getD []) (-1) = some v)) :=
  ⟨by decide, by decide, by decide,
   C4_open_slice_vs_negative_index [[10, 20], [30]] (by decide) (by decide) (by decide)⟩

/-- Counterexample to C4 as stated: on the fresh two-page server
[[10,20],[30]], collection[-1] makes exactly 1 fetch call and returns 20
(the last item of the first page); the cursor afterwards is the token for
page 2, not the exhaustion sentinel "" - so NOT all remaining pages were
fetched. -/
theorem C4_counterexample :
    getitem (mkFetcher [[10, 20], [30]]) 4 (freshState none none) (.idx (-1)) =
      some (.ok (.item 20), ⟨some (tok 1), [10, 20], .FetchAble, none, some 3⟩, 1) ∧
    some (tok 1) ≠ (some "" : Option String) ∧
    (1 : Nat) < 2 :=
  ⟨rfl, by decide, by decide⟩

/-- C6 (amended). The slice-bound computation after defaults start=0,
stop=sys.maxsize, step=1: if (stop - start) * step <= 0 the bound is None
and the slice access fetches nothing - but it returns the Python slice of
the currently cached data, which need not be empty (e.g. [::-1] returns
the reversed cache; see the counterexample); if start or stop is negative
the bound is sys.maxsize (fetch until exhaustion); otherwise the bound is
max(start, stop - 1). -/
theorem C6_slice_bound_computation (seg : PySlice) :
    ((seg.stop.getD sysMaxsize - seg.start.getD 0) * seg.step.getD 1 ≤ 0 →
      calc_max_idx_we_need seg = none) ∧
    (¬ ((seg.stop.getD sysMaxsize - seg.start.getD 0) * seg.step.getD 1 ≤ 0) →
      (seg.start.getD 0 < 0 ∨ seg.stop.getD sysMaxsize < 0) →
      calc_max_idx_we_need seg = some sysMaxsize) ∧
    (¬ ((seg.stop.getD sysMaxsize - seg.start.getD 0) * seg.step.getD 1 ≤ 0) →
      ¬ (seg.start.getD 0 < 0 ∨ seg.stop.getD sysMaxsize < 0) →
      calc_max_idx_we_need seg = some (max (seg.start.getD 0) (seg.stop.getD sysMaxsize - 1))) ∧
    (∀ (f : Fetcher) (fuel : Nat) (st : PgState), st.capacity = none →
      calc_max_idx_we_need seg = none →
      getitem f fuel st (.slc seg) = some (.ok (.items (pySlice st.data seg)), st, 0)) := by
  refine ⟨?_, ?_, ?_, ?_⟩
  · intro h
    simp only [calc_max_idx_we_need, if_pos h]
  · intro hcond1 hcond2
    simp only [calc_max_idx_we_need, if_neg hcond1, if_pos hcond2]
  · intro hcond1 hcond2
    simp only [calc_max_idx_we_need, if_neg hcond1, if_neg hcond2]
  · intro f fuel st hcap hm
    have hcap2 : ¬ st.capacity.isSome = true := by
      rw [hcap]
      simp
    simp only [getitem, if_neg hcap2, get_by_slice, hm, Option.map_some']

/-- Witness for C6: the reversed slice [::-1] on a collection whose cache
is [1,2] fetches nothing and returns [2,1]. -/
theorem C6_slice_bound_computation_witness :
    ((⟨some "", [1, 2], .FetchAble, none, some 2⟩ : PgState).capacity = none) ∧
    calc_max_idx_we_need ⟨none, none, some (-1)⟩ = none ∧
    getitem (mkFetcher [[1, 2]]) 3 (⟨some "", [1, 2], .FetchAble, none, some 2⟩ : PgState)
      (.slc ⟨none, none, some (-1)⟩) =
      some (.ok (.items (pySlice (⟨some "", [1, 2], .FetchAble, none, some 2⟩ : PgState).data
        ⟨none, none, some (-1)⟩)), ⟨some "", [1, 2], .FetchAble, none, some 2⟩, 0) :=
  ⟨rfl, by decide,
   (C6_slice_bound_computation ⟨none, none, some (-1)⟩).2.2.2 (mkFetcher [[1, 2]]) 3
     ⟨some "", [1, 2], .FetchAble, none, some 2⟩ rfl (by decide)⟩

/-- Counterexample to C6 as stated: a first access [0:2] materializes the
single page [1,2]; the short-circuited access [::-1] then fetches nothing
(0 calls) but returns [2,1], which is not an empty result. -/
theorem C6_counterexample :
    getitem (mkFetcher [[1, 2]]) 3 (freshState none none) (.slc ⟨some 0, some 2, none⟩) =
      some (.ok (.items [1, 2]), ⟨some "", [1, 2], .FetchAble, none, some 2⟩, 1) ∧
    getitem (mkFetcher [[1, 2]]) 3 (⟨some "", [1, 2], .FetchAble, none, some 2⟩ : PgState)
      (.slc ⟨none, none, some (-1)⟩) =
      some (.ok (.items [2, 1]), ⟨some "", [1, 2], .FetchAble, none, some 2⟩, 0) ∧
    ([2, 1] : List Nat) ≠ [] ∧
    calc_max_idx_we_need ⟨none, none, some (-1)⟩ = none :=
  ⟨rfl, rfl, by decide, by decide⟩
